import Mathlib

/-!
# Verification of the jexl expression-language core (jbrowse fork)

A shallow embedding of the repository's lexer-output tokens, parser
handlers (`src/index.ts`), grammar (`src/grammar.ts`), and evaluator
handlers (`src/evaluator/handlers.ts`), together with theorems checking
the natural-language specification against them.

Values are JavaScript values restricted to the fragment the expression
language manipulates: `undefined`, `null`, booleans, numbers (modelled as
integers; non-integral and non-finite doubles are outside the model and
the corresponding evaluator branches surface as explicit model-boundary
errors that no claim exercises), strings, arrays and plain objects.
Contexts are insertion-ordered association lists, the shape a JS object
presents to this code.
-/

set_option maxHeartbeats 1000000

namespace Jexl

/-- A JavaScript value as manipulated by the evaluator.  Numbers are
modelled as integers: every number a claim exercises is integral, and the
operator branches that would leave the integers (true division with a
non-integral quotient, negative exponents, non-finite doubles) surface as
explicit model-boundary errors that no claim reaches. -/
inductive Value where
  | undef : Value
  | null : Value
  | bool (b : Bool) : Value
  | num (n : ℤ) : Value
  | str (s : String) : Value
  | arr (xs : List Value) : Value
  | obj (fields : List (String × Value)) : Value
deriving Repr

/-- Result of an evaluation or parse: a value, or a thrown `Error` message. -/
inductive Res (α : Type) where
  | ok (a : α) : Res α
  | err (msg : String) : Res α
deriving DecidableEq, Repr

namespace Res

/-- Monadic bind on `Res`: sequence two fallible computations. -/
def bind {α β : Type} : Res α → (α → Res β) → Res β
  | .ok a, f => f a
  | .err m, _ => .err m

instance : Monad Res where
  pure := .ok
  bind := Res.bind

end Res

/-- JavaScript truthiness (`if (v)`), per the grammar's `&&`/`||` and the
ternary handler: everything is truthy except `false`, `0`, the empty
string, `null` and `undefined` (`NaN` is outside the model). -/
def truthy : Value → Bool
  | .undef => false
  | .null => false
  | .bool b => b
  | .num n => n ≠ 0
  | .str s => s ≠ ""
  | .arr _ => true
  | .obj _ => true

mutual

/-- String conversion `String(v)` of the host language, for the values the
model covers: numbers print in decimal, arrays join their elements with
commas, objects print as `[object Object]`. -/
def jsToString : Value → String
  | .undef => "undefined"
  | .null => "null"
  | .bool b => if b then "true" else "false"
  | .num n => toString n
  | .str s => s
  | .arr xs => String.intercalate "," (jsToStrings xs)
  | .obj _ => "[object Object]"

/-- `String` conversion of each element of an array, in order. -/
def jsToStrings : List Value → List String
  | [] => []
  | v :: vs => jsToString v :: jsToStrings vs

end

/-- Property/index access `subject?.[idx]` as used by the evaluator's
`FilterExpression` and `Identifier` handlers: optional chaining yields
`undefined` on `null`/`undefined`, arrays are indexed by in-range integral
numbers and expose `length`, objects are looked up by string key
(numeric keys coerce to their string form), strings expose `length` and
are indexable by character. Any other access is `undefined`. -/
def jsIndex (subject idx : Value) : Value :=
  match subject with
  | .undef => .undef
  | .null => .undef
  | .arr xs =>
    match idx with
    | .num n =>
      if 0 ≤ n ∧ n < xs.length then xs.getD n.toNat .undef else .undef
    | .str s => if s = "length" then .num xs.length else .undef
    | _ => .undef
  | .obj fields =>
    let key := match idx with
      | .str s => s
      | v => jsToString v
    match fields.find? (fun p => p.1 = key) with
    | some p => p.2
    | none => .undef
  | .str s =>
    match idx with
    | .num n =>
      if 0 ≤ n ∧ n < s.length then
        match (s.toList.get? n.toNat) with
        | some c => .str (String.mk [c])
        | none => .undef
      else .undef
    | .str k => if k = "length" then .num s.length else .undef
    | _ => .undef
  | _ => (.undef)

/-- Property read `v?.[name]` for a string property name. -/
def propRead (v : Value) (name : String) : Value := jsIndex v (.str name)

/-- The evaluation context: an insertion-ordered string-keyed mapping, as a
JS object presents itself to the evaluator. -/
def Ctx := List (String × Value)

/-- `context[name]`: JS property read on the context object — `undefined`
when the key is absent. -/
def ctxLookup (c : Ctx) (name : String) : Value :=
  match List.find? (fun p => p.1 = name) c with
  | some p => p.2
  | none => (.undef)

/-- `context[name] = v`: JS property write — update the existing key in
place (its position is preserved), or append a new binding. -/
def ctxInsert (c : Ctx) (name : String) (v : Value) : Ctx :=
  match c with
  | [] => [(name, v)]
  | (k, w) :: rest =>
    if k = name then (k, v) :: rest else (k, w) :: ctxInsert rest name v

/-- The two function pools of a `FunctionCall` node (`src/types.ts`). -/
inductive Pool where
  | functions : Pool
  | transforms : Pool
deriving DecidableEq, Repr

/-- The AST produced by the parser, following `src/types.ts`.  `ident`'s
second field is the `from` subtree of a member access (named `src` here
because `from` is a Lean keyword); template-literal parts are either
static text (`Sum.inl`) or an interpolated expression (`Sum.inr`);
`cond`'s consequent is optional (`a ?: b`), and its alternate is optional
because the parser only fills it when a `:` branch is present. -/
inductive Ast where
  | lit (v : Value) : Ast
  | ident (name : String) (src : Option Ast) (relative : Bool) : Ast
  | binary (op : String) (left right : Ast) : Ast
  | unary (op : String) (right : Ast) : Ast
  | arrLit (elems : List Ast) : Ast
  | objLit (entries : List (String × Ast)) : Ast
  | tmpl (parts : List (String ⊕ Ast)) : Ast
  | call (name : String) (args : List Ast) (pool : Pool) : Ast
  | filter (subject expr : Ast) (relative : Bool) : Ast
  | cond (test : Ast) (consequent alternate : Option Ast) : Ast
  | seq (exprs : List Ast) : Ast
  | assign (left right : Ast) : Ast

/-- Strict (`===` / SameValueZero) equality, used by the `in` operator's
`includes`: structural on primitives; arrays and objects compare by host
reference, so two values built independently are unequal (the model
returns `false` there, which is what distinct literals observe). -/
def valueSame : Value → Value → Bool
  | .undef, .undef => true
  | .null, .null => true
  | .bool a, .bool b => a == b
  | .num a, .num b => decide (a = b)
  | .str a, .str b => a == b
  | _, _ => false

/-- Numeric reading of a string for loose `==` coercion; the model covers
integral strings (which is all the repository exercises). -/
def strToNum (s : String) : Option ℤ :=
  s.toInt?

/-- Loose equality `==` of the grammar: `null == undefined`, structural on
same-tag primitives, number/string via numeric coercion of the string,
reference semantics (hence `false`) on arrays and objects. Boolean-number
coercions are outside the model (no claim exercises them). -/
def jsEq : Value → Value → Bool
  | .undef, .undef => true
  | .undef, .null => true
  | .null, .undef => true
  | .null, .null => true
  | .bool a, .bool b => a == b
  | .num a, .num b => decide (a = b)
  | .str a, .str b => a == b
  | .num a, .str s =>
    match strToNum s with
    | some b => decide (a = b)
    | none => false
  | .str s, .num b =>
    match strToNum s with
    | some a => decide (a = b)
    | none => false
  | _, _ => false

/-- Substring test `hay.includes(needle)` for the string case of `in`,
computed over the character lists. -/
def strContains (hay needle : String) : Bool :=
  (List.range (hay.toList.length + 1)).any fun i =>
    List.isPrefixOf needle.toList (List.drop i hay.toList)

/-- Addition `left + right` of the grammar's `+` element: numeric addition
on numbers, string concatenation (after host string conversion) when
either operand is a string, an array or an object. Coercion of `null`,
`undefined` or booleans into arithmetic is outside the model. -/
def jsAdd : Value → Value → Res Value
  | .num a, .num b => .ok (.num (a + b))
  | .str a, b => .ok (.str (a ++ jsToString b))
  | a, .str b => .ok (.str (jsToString a ++ b))
  | .arr xs, b => .ok (.str (jsToString (.arr xs) ++ jsToString b))
  | a, .arr ys => .ok (.str (jsToString a ++ jsToString (.arr ys)))
  | .obj fs, b => .ok (.str (jsToString (.obj fs) ++ jsToString b))
  | a, .obj gs => .ok (.str (jsToString a ++ jsToString (.obj gs)))
  | _, _ => .err "model: arithmetic coercion outside the modelled fragment"

/-- The strict binary-operator evaluators of the default grammar
(`src/grammar.ts` elements with an `eval` field).  Branches that would
produce non-finite doubles (`Infinity`, `NaN`) in the host are outside
the model and surface as explicit model-boundary errors; no claim
exercises them. -/
def binApply : String → Value → Value → Res Value
  | "+", l, r => jsAdd l r
  | "-", .num a, .num b => .ok (.num (a - b))
  | "*", .num a, .num b => .ok (.num (a * b))
  | "/", .num a, .num b =>
    if b = 0 then .err "model: division by zero is outside the model"
    else if a % b = 0 then .ok (.num (a / b))
    else .err "model: non-integral quotient is outside the model"
  | "//", .num a, .num b =>
    if b = 0 then .err "model: division by zero is outside the model"
    else .ok (.num (Int.fdiv a b))
  | "%", .num a, .num b =>
    if b = 0 then .err "model: remainder by zero is outside the model"
    else .ok (.num (Int.tmod a b))
  | "^", .num a, .num b =>
    if 0 ≤ b then .ok (.num (a ^ b.toNat))
    else .err "model: negative exponent is outside the model"
  | "==", l, r => .ok (.bool (jsEq l r))
  | "!=", l, r => .ok (.bool (!jsEq l r))
  | ">", .num a, .num b => .ok (.bool (decide (b < a)))
  | ">", .str a, .str b => .ok (.bool (decide (b < a)))
  | ">=", .num a, .num b => .ok (.bool (decide (b ≤ a)))
  | ">=", .str a, .str b => .ok (.bool (decide (b ≤ a)))
  | "<", .num a, .num b => .ok (.bool (decide (a < b)))
  | "<", .str a, .str b => .ok (.bool (decide (a < b)))
  | "<=", .num a, .num b => .ok (.bool (decide (a ≤ b)))
  | "<=", .str a, .str b => .ok (.bool (decide (a ≤ b)))
  | "in", l, .str s =>
    .ok (.bool (strContains s (jsToString l)))
  | "in", l, .arr xs => .ok (.bool (xs.any (valueSame l)))
  | "in", _, _ => .ok (.bool false)
  | "=", _, _ => .err "Assignment handled specially"
  | _, _, _ => .err "model: operator or operand shape outside the modelled fragment"

/-- The unary-operator evaluators of the default grammar: only `!`. -/
def unApply : String → Value → Res Value
  | "!", v => .ok (.bool (!truthy v))
  | _, _ => .err "model: unknown unary operator"

/-- A registered pool of host callables (functions or transforms): each
callable receives its pre-evaluated arguments and either returns a value
or throws. -/
def FuncMap := List (String × (List Value → Res Value))

/-- Look up a callable in a pool. -/
def poolFind (pool : FuncMap) (name : String) :
    Option (List Value → Res Value) :=
  match pool with
  | [] => none
  | (k, f) :: rest => if k = name then some f else poolFind rest name

/-- The evaluator.

Node handlers follow `src/evaluator/handlers.ts` (the jbrowse variant):
`Literal`, `Identifier` (with the one-level array projection on `from`),
`UnaryExpression`, `BinaryExpression` (with the default grammar's
on-demand `&&`/`||` and strict `binApply` otherwise), `ArrayLiteral`,
`ObjectLiteral`, `TemplateLiteral`, `FunctionCall` (whose `poolNames`
table contains only `functions`, so a `transforms`-pool node raises the
corrupt-AST error), `ConditionalExpression`, `SequenceExpression`,
`AssignmentExpression`, and `FilterExpression`, which in that variant
raises on `relative` filters and otherwise indexes the subject.

Modelled from the spec: the `Evaluator` class itself (dispatch,
`evalArray`, `evalMap`, and the relative-context plumbing) is not under
`src`, so the scaffolding — context threading, the `rel` parameter
holding the filter's current element — follows §4.3 of the spec.  When
`fullFilters` is `true` the `FilterExpression` case instead implements
the spec's canonical full filter semantics (spec §4.3: a `null`/
`undefined` subject yields the empty array; each element of an array
subject is kept iff the filter body is truthy under a sub-evaluator
whose relative context is that element, sharing this evaluator's
context), the variant the repository's test suite exercises but whose
handler source is not under `src`.

`fuel` bounds the nesting depth of the recursion (each step of the
interpreter peels one unit); every other aspect is exactly the
handlers' computation. -/
def evalF (fullFilters : Bool) (fs ts : FuncMap) :
    Nat → Ctx → Value → Ast → Res (Value × Ctx)
  | 0, _, _, _ => .err "model: evaluation fuel exhausted"
  | n + 1, ctx, rel, ast =>
    match ast with
    | .lit v => .ok (v, ctx)
    | .ident name src relative =>
      match src with
      | none =>
        if relative then .ok (propRead rel name, ctx)
        else .ok (ctxLookup ctx name, ctx)
      | some f =>
        (evalF fullFilters fs ts n ctx rel f).bind fun vc =>
          match vc.1 with
          | .null => .ok (.undef, vc.2)
          | .undef => .ok (.undef, vc.2)
          | .arr xs => .ok (propRead (xs.headD .undef) name, vc.2)
          | w => .ok (propRead w name, vc.2)
    | .unary op r =>
      (evalF fullFilters fs ts n ctx rel r).bind fun vc =>
        (unApply op vc.1).bind fun w => .ok (w, vc.2)
    | .binary op l r =>
      if op = "&&" then
        (evalF fullFilters fs ts n ctx rel l).bind fun vc =>
          if truthy vc.1 then evalF fullFilters fs ts n vc.2 rel r
          else .ok vc
      else if op = "||" then
        (evalF fullFilters fs ts n ctx rel l).bind fun vc =>
          if truthy vc.1 then .ok vc
          else evalF fullFilters fs ts n vc.2 rel r
      else
        (evalF fullFilters fs ts n ctx rel l).bind fun lc =>
          (evalF fullFilters fs ts n lc.2 rel r).bind fun rc =>
            (binApply op lc.1 rc.1).bind fun w => .ok (w, rc.2)
    | .arrLit es =>
      (es.foldlM (fun (acc : List Value × Ctx) e =>
          (evalF fullFilters fs ts n acc.2 rel e).bind fun vc =>
            .ok (acc.1 ++ [vc.1], vc.2))
        ([], ctx)).bind fun vsc => .ok (.arr vsc.1, vsc.2)
    | .objLit entries =>
      (entries.foldlM (fun (acc : List (String × Value) × Ctx) kv =>
          (evalF fullFilters fs ts n acc.2 rel kv.2).bind fun vc =>
            .ok (acc.1 ++ [(kv.1, vc.1)], vc.2))
        ([], ctx)).bind fun fvc => .ok (.obj fvc.1, fvc.2)
    | .tmpl parts =>
      (parts.foldlM (fun (acc : String × Ctx) (part : String ⊕ Ast) =>
          match part with
          | .inl s => (.ok (acc.1 ++ s, acc.2) : Res (String × Ctx))
          | .inr e =>
            (evalF fullFilters fs ts n acc.2 rel e).bind fun vc =>
              match vc.1 with
              | .null => .ok (acc.1, vc.2)
              | .undef => .ok (acc.1, vc.2)
              | w => .ok (acc.1 ++ jsToString w, vc.2))
        ("", ctx)).bind fun sc => .ok (.str sc.1, sc.2)
    | .call name args pool =>
      match pool with
      | .transforms => .err "Corrupt AST: Pool \x27transforms\x27 not found"
      | .functions =>
        match poolFind fs name with
        | none => .err ("Jexl Function " ++ name ++ " is not defined.")
        | some f =>
          (args.foldlM (fun (acc : List Value × Ctx) e =>
              (evalF fullFilters fs ts n acc.2 rel e).bind fun vc =>
                .ok (acc.1 ++ [vc.1], vc.2))
            ([], ctx)).bind fun vsc =>
            (f vsc.1).bind fun v => .ok (v, vsc.2)
    | .cond t cons alt =>
      (evalF fullFilters fs ts n ctx rel t).bind fun vc =>
        if truthy vc.1 then
          match cons with
          | some cNode => evalF fullFilters fs ts n vc.2 rel cNode
          | none => .ok vc
        else
          match alt with
          | some aNode => evalF fullFilters fs ts n vc.2 rel aNode
          | none => .err "model: ConditionalExpression without an alternate"
    | .seq es =>
      es.foldlM (fun (acc : Value × Ctx) e =>
          evalF fullFilters fs ts n acc.2 rel e)
        (.undef, ctx)
    | .assign l r =>
      match l with
      | .ident name _ _ =>
        (evalF fullFilters fs ts n ctx rel r).bind fun vc =>
          .ok (vc.1, ctxInsert vc.2 name vc.1)
      | _ => .err "model: assignment target carries no variable name"
    | .filter subj e relative =>
      (evalF fullFilters fs ts n ctx rel subj).bind fun sc =>
        if relative then
          if fullFilters then
            let elems : List Value :=
              match sc.1 with
              | .null => []
              | .undef => []
              | .arr xs => xs
              | w => [w]
            (elems.foldlM (fun (acc : List Value × Ctx) x =>
                (evalF fullFilters fs ts n acc.2 x e).bind fun vc =>
                  .ok (if truthy vc.1 then acc.1 ++ [x] else acc.1, vc.2))
              ([], sc.2)).bind fun kc => .ok (.arr kc.1, kc.2)
          else .err "Relative filter expressions are not supported"
        else
          (evalF fullFilters fs ts n sc.2 rel e).bind fun ic =>
            .ok (jsIndex sc.1 ic.1, ic.2)

/-! ## The parser

The parser's token handlers are under `src` (`src/parser/handlers.ts`);
the `Parser` class itself (cursor and parent-pointer bookkeeping, the
state tables, sub-parser spawning) is not, so that scaffolding is
modelled from spec §4.2.  The in-progress tree is represented by the
chain of ancestors of the cursor that still await their right-hand
child (`PFrame`s, innermost first) together with the completed subtree
at the cursor; `placeAtCursor` fills the pending slot, and the
binary-operator precedence walk up the parent pointers is the
`popGE` pop of that chain.  Sub-expressions (parentheses, ternary
branches) are parsed by recursive sub-parses that stop on the closing
token, mirroring the spawned sub-parser with its stop map.

The modelled token fragment is the one the claims exercise: literals,
identifiers, `.` chains, unary and binary operators including `=`,
ternaries, parentheses and `;`.  Array/object literals, brackets,
pipes and function-call argument lists are not modelled. -/

/-- A lexer-output token (`{type, value}`), for the modelled fragment. -/
inductive Tok where
  | lit (v : Value) : Tok
  | ident (name : String) : Tok
  | binOp (op : String) : Tok
  | unOp (op : String) : Tok
  | dot : Tok
  | question : Tok
  | colon : Tok
  | openParen : Tok
  | closeParen : Tok
  | semicolon : Tok
deriving Repr

/-- The token kinds, used for sub-parser stop maps. -/
inductive TKind where
  | litK | identK | binOpK | unOpK | dotK | questionK
  | colonK | openParenK | closeParenK | semicolonK
deriving DecidableEq, Repr

/-- Kind of a token. -/
def tokKind : Tok → TKind
  | .lit _ => .litK
  | .ident _ => .identK
  | .binOp _ => .binOpK
  | .unOp _ => .unOpK
  | .dot => .dotK
  | .question => .questionK
  | .colon => .colonK
  | .openParen => .openParenK
  | .closeParen => .closeParenK
  | .semicolon => .semicolonK

/-- A grammar element as the parser consumes it: the parser reads only
the element kind and, for binary operators, the `precedence` field.
Unary operators always have precedence `Infinity` (`addUnaryOp`
registers them so), which the model builds into the precedence walk. -/
inductive GElem where
  | punct : GElem
  | binaryOp (prec : ℕ) : GElem
  | unaryOp : GElem
deriving Repr

/-- The grammar's element table, as a lookup. -/
def Grammar := String → Option GElem

/-- `grammar.elements[op].precedence || 0` for a binary operator. -/
def precOf (g : Grammar) (op : String) : ℕ :=
  match g op with
  | some (.binaryOp p) => p
  | _ => 0

/-- The default grammar of `src/grammar.ts`, restricted to what the
parser reads (kinds and precedences). -/
def defaultG : Grammar := fun op =>
  if op = "+" then some (.binaryOp 30)
  else if op = "-" then some (.binaryOp 30)
  else if op = "*" then some (.binaryOp 40)
  else if op = "/" then some (.binaryOp 40)
  else if op = "//" then some (.binaryOp 40)
  else if op = "%" then some (.binaryOp 50)
  else if op = "^" then some (.binaryOp 50)
  else if op = "==" then some (.binaryOp 20)
  else if op = "!=" then some (.binaryOp 20)
  else if op = ">" then some (.binaryOp 20)
  else if op = ">=" then some (.binaryOp 20)
  else if op = "<" then some (.binaryOp 20)
  else if op = "<=" then some (.binaryOp 20)
  else if op = "&&" then some (.binaryOp 10)
  else if op = "||" then some (.binaryOp 10)
  else if op = "in" then some (.binaryOp 20)
  else if op = "!" then some (.unaryOp)
  else if op = "=" then some (.binaryOp 2)
  else if op ∈ [".", "[", "]", "|", "\x7b", "\x7d", ":", ",", "(", ")", "?", ";"] then
    some .punct
  else none

/-- An ancestor of the cursor still awaiting its right-hand child: a
`BinaryExpression` with a pending `right`, a `UnaryExpression` with a
pending `right`, or an `AssignmentExpression` with a pending `right`
(its `target` identifier already captured). -/
inductive PFrame where
  | bin (op : String) (left : Ast) : PFrame
  | un (op : String) : PFrame
  | asn (target : Ast) : PFrame

/-- The precedence-walk condition
`parent.operator && grammar.elements[parent.operator].precedence >= p`:
unary parents carry precedence `Infinity`, assignment parents look up
`=` in the grammar. -/
def framePrecGE (g : Grammar) (f : PFrame) (p : ℕ) : Bool :=
  match f with
  | .bin op _ => p ≤ precOf g op
  | .un _ => true
  | .asn _ => p ≤ precOf g "="

/-- Fill a pending frame with its right-hand child. -/
def applyFrame : PFrame → Ast → Ast
  | .bin op l, c => .binary op l c
  | .un op, c => .unary op c
  | .asn t, c => .assign t c

/-- Rebuild the root from the cursor: fill each pending ancestor from the
innermost out. -/
def collapse (frames : List PFrame) (c : Ast) : Ast :=
  frames.foldl (fun cur f => applyFrame f cur) c

/-- The precedence walk of the `binaryOp` handler: move the cursor up
(filling each passed frame) while the ancestor's operator has
precedence `≥ p`. -/
def popGE (g : Grammar) (p : ℕ) : List PFrame → Ast → List PFrame × Ast
  | [], c => ([], c)
  | f :: fs, c =>
    if framePrecGE g f p then popGE g p fs (applyFrame f c)
    else (f :: fs, c)

/-- The parser states the modelled fragment passes through:
`expectOperand`, `expectBinOp`, and `traverse` (after a `.`). -/
inductive PMode where
  | operand | binop | traverse
deriving DecidableEq, Repr

/-- The parser's mutable state: pending ancestor frames, the completed
subtree at the cursor, the state-machine mode, the trees collected by
`;`, and the two flags the `dot` handler sets
(`_nextIdentEncapsulate`, `_nextIdentRelative`). -/
structure PState where
  frames : List PFrame
  cursor : Option Ast
  mode : PMode
  seqAcc : List Ast
  encaps : Bool
  relFlag : Bool

/-- The state a fresh (sub-)parser starts in. -/
def initPState : PState :=
  { frames := [], cursor := none, mode := .operand, seqAcc := [],
    encaps := false, relFlag := false }

/-- `complete()`'s sequence wrapping: when `;` collected earlier trees,
wrap them all (including the final one) in a `SequenceExpression`. -/
def wrapSeq (seqAcc : List Ast) (a : Ast) : Ast :=
  if seqAcc.isEmpty then a else .seq (seqAcc ++ [a])

/-- The `dot` handler's `_nextIdentEncapsulate` condition on a completed
cursor: `cursor && cursor.type !== 'UnaryExpression' &&
(cursor.type !== 'BinaryExpression' || cursor.right)`; a completed
binary node always has its `right`. -/
def encapsCond : Ast → Bool
  | .unary _ _ => false
  | _ => true

/-- One (sub-)parser run: feed the tokens one at a time through the
state machine, spawning recursive sub-parses for parenthesised groups
and ternary branches.  Returns the completed AST (`none` for an empty
sub-expression, as `complete()` returns a null tree), the stop-map
token kind that ended a sub-parse (`none` at end of input), and the
unconsumed rest of the stream.  `fuel` bounds the recursion depth. -/
def parseSub (g : Grammar) :
    Nat → List TKind → PState → List Tok →
    Res (Option Ast × Option TKind × List Tok)
  | 0, _, _, _ => .err "model: parser fuel exhausted"
  | n + 1, stops, st, toks =>
    match toks with
    | [] =>
      match st.mode with
      | .binop =>
        match st.cursor with
        | some c => .ok (some (wrapSeq st.seqAcc (collapse st.frames c)), none, [])
        | none => .err "model: unreachable parser state"
      | .operand =>
        if st.frames.isEmpty && st.cursor.isNone && st.seqAcc.isEmpty then
          .ok (none, none, [])
        else .err "Unexpected end of expression"
      | .traverse => .err "Unexpected end of expression"
    | t :: rest =>
      match st.mode with
      | .operand =>
        match t with
        | .lit v =>
          parseSub g n stops
            { st with cursor := some (.lit v), mode := .binop } rest
        | .ident name =>
          parseSub g n stops
            { st with cursor := some (.ident name none false), mode := .binop } rest
        | .unOp op =>
          parseSub g n stops { st with frames := .un op :: st.frames } rest
        | .dot =>
          parseSub g n stops
            { st with mode := .traverse, encaps := false, relFlag := true } rest
        | .openParen =>
          (parseSub g n [.closeParenK] initPState rest).bind fun r =>
            match r with
            | (some a, some .closeParenK, rest') =>
              parseSub g n stops
                { st with cursor := some a, mode := .binop } rest'
            | (none, some .closeParenK, _) =>
              .err "model: empty parenthesised subexpression"
            | _ => .err "Unexpected end of expression"
        | t' =>
          if tokKind t' ∈ stops then
            if st.frames.isEmpty && st.cursor.isNone && st.seqAcc.isEmpty then
              .ok (none, some (tokKind t'), rest)
            else .err "Unexpected end of expression"
          else .err "Token unexpected in expression"
      | .binop =>
        match st.cursor with
        | none => .err "model: unreachable parser state"
        | some c =>
          match t with
          | .binOp op =>
            if op = "=" then
              match c with
              | .ident _ _ _ =>
                parseSub g n stops
                  { st with frames := .asn c :: st.frames, cursor := none, mode := .operand } rest
              | _ => .err "Left side of assignment must be a variable name"
            else
              let pc := popGE g (precOf g op) st.frames c
              parseSub g n stops
                { st with frames := .bin op pc.2 :: pc.1, cursor := none, mode := .operand } rest
          | .dot =>
            parseSub g n stops
              { st with mode := .traverse, encaps := encapsCond c, relFlag := !encapsCond c } rest
          | .question =>
            let test := collapse st.frames c
            (parseSub g n [.colonK] initPState rest).bind fun r1 =>
              match r1 with
              | (consequent, some .colonK, rest1) =>
                (parseSub g n stops initPState rest1).bind fun r2 =>
                  match r2 with
                  | (alt, stopTok, rest2) =>
                    .ok (some (wrapSeq st.seqAcc (.cond test consequent alt)),
                      stopTok, rest2)
              | _ => .err "Unexpected end of expression"
          | .semicolon =>
            parseSub g n stops
              { st with seqAcc := st.seqAcc ++ [collapse st.frames c], frames := [], cursor := none, mode := .operand } rest
          | t' =>
            if tokKind t' ∈ stops then
              .ok (some (wrapSeq st.seqAcc (collapse st.frames c)),
                some (tokKind t'), rest)
            else .err "Token unexpected in expression"
      | .traverse =>
        match t with
        | .ident name =>
          if st.encaps then
            match st.cursor with
            | some c =>
              parseSub g n stops
                { st with cursor := some (.ident name (some c) false), mode := .binop, encaps := false } rest
            | none => .err "model: unreachable parser state"
          else
            match st.cursor with
            | none =>
              parseSub g n stops
                { st with cursor := some (.ident name none true), mode := .binop, relFlag := false } rest
            | some _ =>
              .err "model: relative identifier after a completed operand is outside the modelled fragment"
        | _ => .err "Token unexpected in expression"

/-- Parse a complete token stream: run a top-level sub-parse with no
stop map and require the whole stream consumed. -/
def parseToks (g : Grammar) (toks : List Tok) : Res Ast :=
  match parseSub g (4 * toks.length + 4) [] initPState toks with
  | .ok (some a, none, _) => .ok a
  | .ok (none, _, _) => .err "model: empty expression"
  | .ok (some _, some _, _) => .err "model: unconsumed stop token"
  | .err m => .err m

/-! ## Concrete fixtures used by several claim theorems -/

/-- The context of the test-suite fixture
`{foo: {bar: [{tek: 'hello'}, {tek: 'baz'}, {tok: 'baz'}]}}`. -/
def filterCtx : Ctx :=
  [("foo", .obj [("bar", .arr
    [.obj [("tek", .str "hello")],
     .obj [("tek", .str "baz")],
     .obj [("tok", .str "baz")]])])]

/-- The AST of `foo.bar[.tek == "baz"]`: a relative `FilterExpression`
over the identifier chain `foo.bar`. -/
def filterAst : Ast :=
  .filter (.ident "bar" (some (.ident "foo" none false)) false)
    (.binary "==" (.ident "tek" none true) (.lit (.str "baz"))) true

/-! ## The operator-precedence tree invariant

A subtree is `noHigherParent`-good when, along every chain of
`BinaryExpression` nodes, no node's operator has strictly higher
precedence than its child's.  Non-binary nodes (literals, identifiers,
parenthesised sub-expressions delivered whole by a sub-parser, …) end
such a chain: a grouped operand arrives at the parser as an atomic
operand, so the promotion walk never relates its operators to the outer
ones. -/

/-- A child subtree is acceptable under a parent of precedence `p`: if
its root is a `BinaryExpression`, its operator precedence is at least
`p`. -/
def childPrecOK (g : Grammar) (p : ℕ) : Ast → Bool
  | .binary cop _ _ => decide (p ≤ precOf g cop)
  | _ => true

/-- No `BinaryExpression` in the operator spine has a parent
`BinaryExpression` of strictly higher precedence. -/
def noHigherParent (g : Grammar) : Ast → Bool
  | .binary op l r =>
    childPrecOK g (precOf g op) l && childPrecOK g (precOf g op) r &&
    noHigherParent g l && noHigherParent g r
  | .unary _ r => noHigherParent g r
  | _ => true

/-- The top pending frame, if any, is a binary frame of precedence
strictly below `p`. -/
def topPrecLT (g : Grammar) (p : ℕ) : List PFrame → Prop
  | [] => True
  | .bin op _ :: _ => precOf g op < p
  | _ => False

/-- Invariant of the pending-frame chain during a run over a flat
operator stream: every frame is a binary frame whose stored left operand
is `noHigherParent`-good with root precedence at least the frame's, and
precedences strictly decrease from the innermost frame outward. -/
def stackOK (g : Grammar) : List PFrame → Prop
  | [] => True
  | .bin op l :: fs =>
    noHigherParent g l = true ∧ childPrecOK g (precOf g op) l = true ∧
    topPrecLT g (precOf g op) fs ∧ stackOK g fs
  | _ => False

/-- The cursor's subtree is acceptable as the pending right child of the
innermost frame. -/
def topFits (g : Grammar) (frames : List PFrame) (c : Ast) : Prop :=
  match frames with
  | [] => True
  | .bin op _ :: _ => childPrecOK g (precOf g op) c = true
  | _ => False

/-- The token stream of a flat operator chain `a ⊕₁ b ⊕₂ c ⊕₃ …`
continuing a first operand: one `binaryOp` token and one literal per
pair. -/
def chainToks (rest : List (String × Value)) : List Tok :=
  rest.foldr (fun ov acc => .binOp ov.1 :: .lit ov.2 :: acc) []


/-! ## Basic lemmas -/

namespace Res

@[simp] theorem bind_ok {α β : Type} (a : α) (f : α → Res β) :
    Res.bind (.ok a) f = f a := rfl

@[simp] theorem bind_err {α β : Type} (m : String) (f : α → Res β) :
    Res.bind (.err m) f = .err m := rfl

@[simp] theorem pure_eq_ok {α : Type} (a : α) : (pure a : Res α) = .ok a := rfl

@[simp] theorem bind_eq_bind {α β : Type} (x : Res α) (f : α → Res β) :
    x >>= f = Res.bind x f := rfl

end Res

/-- Updating `name` leaves every other binding untouched. -/
theorem ctxLookup_ctxInsert_ne (c : Ctx) (name y : String) (v : Value)
    (h : y ≠ name) : ctxLookup (ctxInsert c name v) y = ctxLookup c y := by
  induction c with
  | nil =>
    simp only [ctxInsert, ctxLookup, List.find?]
    have : (decide (name = y)) = false := by
      simp [decide_eq_false_iff_not]
      exact fun hc => h hc.symm
    simp [this]
  | cons p rest ih =>
    obtain ⟨k, w⟩ := p
    simp only [ctxInsert]
    by_cases hk : k = name
    · subst hk
      simp only [if_pos rfl, ctxLookup, List.find?]
      have : (decide (k = y)) = false := by
        simp [decide_eq_false_iff_not]
        exact fun hc => h hc.symm
      simp [this]
    · simp only [if_neg hk, ctxLookup, List.find?]
      by_cases hky : k = y
      · simp [hky]
      · have h1 : (decide (k = y)) = false := by simp [hky]
        simp only [h1]
        exact ih

/-- Updating `name` makes it read back the written value. -/
theorem ctxLookup_ctxInsert_self (c : Ctx) (name : String) (v : Value) :
    ctxLookup (ctxInsert c name v) name = v := by
  induction c with
  | nil => simp [ctxInsert, ctxLookup, List.find?]
  | cons p rest ih =>
    obtain ⟨k, w⟩ := p
    simp only [ctxInsert]
    by_cases hk : k = name
    · subst hk
      simp [ctxLookup, List.find?]
    · have h1 : (decide (k = name)) = false := by simp [hk]
      simp only [if_neg hk, ctxLookup, List.find?, h1]
      exact ih

/-- `String.join` distributes over cons. -/
theorem stringJoin_cons (t : String) (rest : List String) :
    String.join (t :: rest) = t ++ String.join rest := by
  apply String.ext
  simp [String.join_eq, String.data_append]

/-- The template fold over purely static parts appends their
concatenation to the accumulator and leaves the context untouched. -/
theorem tmpl_static_fold (fl : Bool) (fs ts : FuncMap) (n : ℕ) (rel : Value) :
    ∀ (texts : List String) (acc : String × Ctx),
      List.foldlM
        (fun (acc : String × Ctx) (part : String ⊕ Ast) =>
          match part with
          | .inl s => (.ok (acc.1 ++ s, acc.2) : Res (String × Ctx))
          | .inr e =>
            (evalF fl fs ts n acc.2 rel e).bind fun vc =>
              match vc.1 with
              | .null => .ok (acc.1, vc.2)
              | .undef => .ok (acc.1, vc.2)
              | w => .ok (acc.1 ++ jsToString w, vc.2))
        acc (texts.map Sum.inl)
      = .ok (acc.1 ++ String.join texts, acc.2) := by
  intro texts
  induction texts with
  | nil =>
    intro acc
    simp [String.join, String.append_empty]
  | cons t rest ih =>
    intro acc
    simp only [List.map_cons, List.foldlM_cons, Res.bind_eq_bind, Res.pure_eq_ok,
      bind, Res.bind_ok]
    rw [ih (acc.1 ++ t, acc.2), stringJoin_cons, String.append_assoc]

/-- A flat chain contributes two tokens per operator. -/
theorem chainToks_length (rest : List (String × Value)) :
    (chainToks rest).length = 2 * rest.length := by
  induction rest with
  | nil => rfl
  | cons ov rest ih => simp [chainToks] at ih ⊢; omega

/-- The precedence walk preserves the frame-chain invariant: the
promoted cursor is `noHigherParent`-good and its root precedence is at
least `p`, and the remaining frames all have precedence below `p`. -/
theorem popGE_ok (g : Grammar) (p : ℕ) :
    ∀ (frames : List PFrame) (c : Ast),
      stackOK g frames → noHigherParent g c = true → childPrecOK g p c = true →
      topFits g frames c →
      stackOK g (popGE g p frames c).1 ∧ topPrecLT g p (popGE g p frames c).1 ∧
      noHigherParent g (popGE g p frames c).2 = true ∧
      childPrecOK g p (popGE g p frames c).2 = true := by
  intro frames
  induction frames with
  | nil =>
    intro c _ hc hcp _
    exact ⟨trivial, trivial, hc, hcp⟩
  | cons f fs ih =>
    intro c hs hc hcp hf
    match f, hs with
    | .bin op l, ⟨hl, hlp, htop, hfs⟩ =>
      show stackOK g (popGE g p (.bin op l :: fs) c).1 ∧ _
      rw [popGE]
      by_cases hge : framePrecGE g (.bin op l) p
      · simp only [if_pos hge]
        have hple : p ≤ precOf g op := by
          simpa [framePrecGE] using hge
        have hnew : noHigherParent g (applyFrame (.bin op l) c) = true := by
          simp [applyFrame, noHigherParent, hl, hlp, hc]
          exact hf
        have hnewp : childPrecOK g p (applyFrame (.bin op l) c) = true := by
          simp [applyFrame, childPrecOK, hple]
        have hnewfits : topFits g fs (applyFrame (.bin op l) c) := by
          match fs, htop with
          | [], _ => trivial
          | .bin op' l' :: fs', hlt =>
            simp [topFits, applyFrame, childPrecOK]
            exact Nat.le_of_lt hlt
        exact ih (applyFrame (.bin op l) c) hfs hnew hnewp hnewfits
      · simp only [if_neg hge]
        refine ⟨⟨hl, hlp, htop, hfs⟩, ?_, hc, hcp⟩
        have : ¬ (p ≤ precOf g op) := by
          simpa [framePrecGE] using hge
        simp [topPrecLT]
        omega

/-- Collapsing a good frame chain onto a fitting cursor yields a
`noHigherParent`-good tree. -/
theorem collapse_ok (g : Grammar) :
    ∀ (frames : List PFrame) (c : Ast),
      stackOK g frames → noHigherParent g c = true → topFits g frames c →
      noHigherParent g (collapse frames c) = true := by
  intro frames
  induction frames with
  | nil => intro c _ hc _; simpa [collapse] using hc
  | cons f fs ih =>
    intro c hs hc hf
    match f, hs with
    | .bin op l, ⟨hl, hlp, htop, hfs⟩ =>
      show noHigherParent g (collapse (.bin op l :: fs) c) = true
      rw [collapse, List.foldl_cons]
      have hnew : noHigherParent g (applyFrame (.bin op l) c) = true := by
        simp [applyFrame, noHigherParent, hl, hlp, hc]
        exact hf
      have hnewfits : topFits g fs (applyFrame (.bin op l) c) := by
        match fs, htop with
        | [], _ => trivial
        | .bin op' l' :: fs', hlt =>
          simp [topFits, applyFrame, childPrecOK]
          exact Nat.le_of_lt hlt
      exact ih (applyFrame (.bin op l) c) hfs hnew hnewfits

/-- Running the parser over any flat operator chain from a good state
completes and produces a `noHigherParent`-good tree. -/
theorem parse_chain_ok (g : Grammar) :
    ∀ (rest : List (String × Value)) (n : ℕ) (frames : List PFrame) (c : Ast)
      (enc rf : Bool),
      2 * rest.length + 1 ≤ n →
      (∀ ov ∈ rest, ov.1 ≠ "=") →
      stackOK g frames → noHigherParent g c = true → topFits g frames c →
      (∀ p, childPrecOK g p c = true) →
      ∃ ast, parseSub g n [] ⟨frames, some c, .binop, [], enc, rf⟩ (chainToks rest)
          = .ok (some ast, none, []) ∧ noHigherParent g ast = true := by
  intro rest
  induction rest with
  | nil =>
    intro n frames c enc rf hn _ hs hc hf _
    obtain ⟨m, rfl⟩ : ∃ m, n = m + 1 := ⟨n - 1, by omega⟩
    refine ⟨collapse frames c, ?_, collapse_ok g frames c hs hc hf⟩
    show Res.ok (some (wrapSeq [] (collapse frames c)), none, []) = _
    simp [wrapSeq]
  | cons ov rest' ih =>
    intro n frames c enc rf hn hops hs hc hf hcp
    obtain ⟨op, val⟩ := ov
    have hop : op ≠ "=" := hops (op, val) (List.mem_cons_self _ _)
    obtain ⟨m, rfl⟩ : ∃ m, n = m + 2 := ⟨n - 2, by simp at hn; omega⟩
    have step1 :
        parseSub g (m + 1 + 1) [] ⟨frames, some c, .binop, [], enc, rf⟩
          (chainToks ((op, val) :: rest'))
          = parseSub g (m + 1) []
              ⟨.bin op (popGE g (precOf g op) frames c).2
                  :: (popGE g (precOf g op) frames c).1,
               none, .operand, [], enc, rf⟩
              (.lit val :: chainToks rest') := by
      show parseSub g (m + 1 + 1) [] _ (.binOp op :: .lit val :: chainToks rest') = _
      simp only [parseSub]
      rw [if_neg hop]
    have step2 :
        parseSub g (m + 1) []
            ⟨.bin op (popGE g (precOf g op) frames c).2
                :: (popGE g (precOf g op) frames c).1,
             none, .operand, [], enc, rf⟩
            (.lit val :: chainToks rest')
          = parseSub g m []
              ⟨.bin op (popGE g (precOf g op) frames c).2
                  :: (popGE g (precOf g op) frames c).1,
               some (.lit val), .binop, [], enc, rf⟩
              (chainToks rest') := rfl
    rw [step1, step2]
    have hpop := popGE_ok g (precOf g op) frames c hs hc (hcp _) hf
    refine ih m _ (.lit val) enc rf (by simp at hn ⊢; omega)
      (fun ov hov => hops ov (List.mem_cons_of_mem _ hov))
      ⟨hpop.2.2.1, hpop.2.2.2, hpop.2.1, hpop.1⟩ rfl ?_ (fun p => rfl)
    show topFits g (_ :: _) (.lit val)
    simp [topFits, childPrecOK]

/-- Any flat operator chain parses to a `noHigherParent`-good tree. -/
theorem parse_flat_invariant (g : Grammar) (a : Value)
    (rest : List (String × Value)) (hops : ∀ ov ∈ rest, ov.1 ≠ "=") :
    ∃ ast, parseToks g (.lit a :: chainToks rest) = .ok ast ∧
      noHigherParent g ast = true := by
  obtain ⟨ast, hparse, hinv⟩ :=
    parse_chain_ok g rest (8 * rest.length + 7) [] (.lit a) false false
      (by omega) hops trivial rfl trivial (fun p => rfl)
  refine ⟨ast, ?_, hinv⟩
  have hf : 4 * (Tok.lit a :: chainToks rest).length + 4
      = (8 * rest.length + 7) + 1 := by
    simp [chainToks_length]; omega
  unfold parseToks
  rw [hf]
  have step : parseSub g ((8 * rest.length + 7) + 1) [] initPState
      (.lit a :: chainToks rest)
      = parseSub g (8 * rest.length + 7) []
          ⟨[], some (.lit a), .binop, [], false, false⟩ (chainToks rest) := rfl
  rw [step, hparse]


/-! ## Fidelity checks

The embedded parser and evaluator reproduce the repository's own test
cases (`test/lib/parser/Parser.test.js`, `test/lib/evaluator/
Evaluator.test.js`, `test/lib/multi-expression.test.js`). -/

/-- The parser model reproduces the repository's parser test cases. -/
theorem parse_matches_repo_tests :
    parseToks defaultG [.lit (.num 2), .binOp "+", .lit (.num 3), .binOp "*",
      .lit (.num 4)]
      = .ok (.binary "+" (.lit (.num 2))
          (.binary "*" (.lit (.num 3)) (.lit (.num 4))))
    ∧ parseToks defaultG [.lit (.num 2), .binOp "*", .lit (.num 3), .binOp "+",
        .lit (.num 4)]
      = .ok (.binary "+" (.binary "*" (.lit (.num 2)) (.lit (.num 3)))
          (.lit (.num 4)))
    ∧ parseToks defaultG [.lit (.num 2), .binOp "+", .lit (.num 3), .binOp "*",
        .lit (.num 4), .binOp "==", .lit (.num 5), .binOp "/", .lit (.num 6),
        .binOp "-", .lit (.num 7)]
      = .ok (.binary "=="
          (.binary "+" (.lit (.num 2))
            (.binary "*" (.lit (.num 3)) (.lit (.num 4))))
          (.binary "-" (.binary "/" (.lit (.num 5)) (.lit (.num 6)))
            (.lit (.num 7))))
    ∧ parseToks defaultG [.lit (.num 1), .binOp "*", .unOp "!", .unOp "!",
        .lit (.bool true), .binOp "-", .lit (.num 2)]
      = .ok (.binary "-"
          (.binary "*" (.lit (.num 1))
            (.unary "!" (.unary "!" (.lit (.bool true)))))
          (.lit (.num 2)))
    ∧ parseToks defaultG [.openParen, .lit (.num 4), .binOp "*", .openParen,
        .lit (.num 2), .binOp "+", .lit (.num 3), .closeParen, .closeParen,
        .binOp "/", .lit (.num 5)]
      = .ok (.binary "/"
          (.binary "*" (.lit (.num 4))
            (.binary "+" (.lit (.num 2)) (.lit (.num 3))))
          (.lit (.num 5)))
    ∧ parseToks defaultG [.ident "foo", .dot, .ident "bar", .dot, .ident "baz",
        .binOp "+", .lit (.num 1)]
      = .ok (.binary "+"
          (.ident "baz" (some (.ident "bar" (some (.ident "foo" none false))
            false)) false)
          (.lit (.num 1)))
    ∧ parseToks defaultG [.ident "foo", .question, .ident "bar", .question,
        .lit (.num 1), .colon, .lit (.num 2), .colon, .lit (.num 3)]
      = .ok (.cond (.ident "foo" none false)
          (some (.cond (.ident "bar" none false) (some (.lit (.num 1)))
            (some (.lit (.num 2)))))
          (some (.lit (.num 3))))
    ∧ parseToks defaultG [.lit (.str "foo"), .question, .colon,
        .lit (.str "bar")]
      = .ok (.cond (.lit (.str "foo")) none (some (.lit (.str "bar"))))
    ∧ parseToks defaultG [.lit (.num 5), .semicolon, .lit (.num 10),
        .semicolon, .lit (.num 15)]
      = .ok (.seq [.lit (.num 5), .lit (.num 10), .lit (.num 15)])
    ∧ parseToks defaultG [.ident "a", .binOp "=", .ident "b", .binOp "=",
        .ident "c", .binOp "=", .lit (.num 5)]
      = .ok (.assign (.ident "a" none false)
          (.assign (.ident "b" none false)
            (.assign (.ident "c" none false) (.lit (.num 5))))) :=
  ⟨rfl, rfl, rfl, rfl, rfl, rfl, rfl, rfl, rfl, rfl⟩

/-- The evaluator model reproduces the repository's evaluator test
cases. -/
theorem evalF_matches_repo_tests :
    evalF false [] [] 5 [] .undef
      (.binary "*" (.binary "+" (.lit (.num 2)) (.lit (.num 3)))
        (.lit (.num 4)))
      = .ok (.num 20, [])
    ∧ evalF false [] [] 5 [] .undef
        (.binary "//" (.lit (.num 7)) (.lit (.num 2))) = .ok (.num 3, [])
    ∧ evalF false [] [] 5 [] .undef
        (.binary "//" (.lit (.num (-7))) (.lit (.num 2))) = .ok (.num (-4), [])
    ∧ evalF false [] [] 5 [] .undef
        (.binary "in" (.lit (.str "bar")) (.lit (.str "foobartek")))
      = .ok (.bool true, [])
    ∧ evalF false [] [] 5 [] .undef
        (.binary "in" (.lit (.str "baz")) (.lit (.str "foobartek")))
      = .ok (.bool false, [])
    ∧ evalF false [] [] 5 [] .undef
        (.binary "in" (.lit (.str "bar"))
          (.lit (.arr [.str "foo", .str "bar", .str "tek"])))
      = .ok (.bool true, [])
    ∧ evalF false [] [] 10 [("x", .num 1)] .undef
        (.seq [.assign (.ident "x" none false) (.lit (.num 5)),
          .assign (.ident "x" none false)
            (.binary "+" (.ident "x" none false) (.lit (.num 1))),
          .ident "x" none false])
      = .ok (.num 6, [("x", .num 6)])
    ∧ evalF false [] [] 10
        [("foo", .obj [("bar", .arr [.obj [("tek", .obj [("hello",
          .str "world")])], .obj [("tek", .obj [("hello",
          .str "universe")])]])])] .undef
        (.ident "hello" (some (.ident "tek" (some (.ident "bar"
          (some (.ident "foo" none false)) false)) false)) false)
      = .ok (.str "world",
          [("foo", .obj [("bar", .arr [.obj [("tek", .obj [("hello",
            .str "world")])], .obj [("tek", .obj [("hello",
            .str "universe")])]])])])
    ∧ evalF false [] [] 10 [("name", .str "World")] .undef
        (.tmpl [.inl "Hello ", .inr (.ident "name" none false)])
      = .ok (.str "Hello World", [("name", .str "World")])
    ∧ evalF false [] [] 10 [("price", .num 10), ("qty", .num 3)] .undef
        (.tmpl [.inl "Total: ", .inr (.binary "*" (.ident "price" none false)
          (.ident "qty" none false))])
      = .ok (.str "Total: 30", [("price", .num 10), ("qty", .num 3)]) :=
  ⟨rfl, rfl, rfl, rfl, rfl, rfl, rfl, rfl, rfl, rfl⟩

/-! ## Claim theorems -/

/-- C1.  The spec: a relative `FilterExpression` filters its array subject
element-by-element (empty array on a `null`/`undefined` subject), a
non-relative one indexes the subject (`undefined` on a missing subject).
The `FilterExpression` handler under `src` instead throws
`Relative filter expressions are not supported` on every relative
filter — contradicting the repository's own evaluator tests
(`filters arrays`, `returns empty array when applying a filter to an
undefined value`).  This theorem exhibits: the `src` handler raising on
the test-suite fixture `foo.bar[.tek == "baz"]`; the spec-modelled
full-filter evaluator returning `[{tek: 'baz'}]` there, the empty array
for the undefined subject `a.b[.c == d]`, and the singleton kept
element's identity; and the index form returning `subject[index]` and
`undefined` on an undefined subject. -/
theorem c1_filter_code_vs_spec :
    evalF false [] [] 10 filterCtx .undef filterAst
      = .err "Relative filter expressions are not supported"
    ∧ evalF true [] [] 10 filterCtx .undef filterAst
      = .ok (.arr [.obj [("tek", .str "baz")]], filterCtx)
    ∧ evalF true [] [] 10 [("a", .obj []), ("d", .num 4)] .undef
        (.filter (.ident "b" (some (.ident "a" none false)) false)
          (.binary "==" (.ident "c" none true) (.ident "d" none false)) true)
      = .ok (.arr [], [("a", .obj []), ("d", .num 4)])
    ∧ evalF false [] [] 10 [("arr", .arr [.str "x", .str "y"])] .undef
        (.filter (.ident "arr" none false) (.lit (.num 1)) false)
      = .ok (.str "y", [("arr", .arr [.str "x", .str "y"])])
    ∧ evalF false [] [] 10 [] .undef
        (.filter (.ident "a" none false) (.lit (.num 0)) false)
      = .ok (.undef, []) :=
  ⟨rfl, rfl, rfl, rfl, rfl⟩

/-- C2.  The claim: `x = t ? c : a` assigns the chosen branch value.
The parser's `ternaryStart` wraps the whole tree — including the pending
assignment — in the `ConditionalExpression`'s test, so the code parses
`x = 0 ? 1 : 2` as `(x = 0) ? 1 : 2`, assigns `x` the evaluated test
value `0`, and returns the branch value `2`; the repository's own tests
mark this as a bug (`BUG: Assignment of ternary result stores the test
condition instead of the result`). -/
theorem c2_assign_ternary_bug :
    parseToks defaultG
      [.ident "x", .binOp "=", .lit (.num 0), .question,
       .lit (.num 1), .colon, .lit (.num 2)]
      = .ok (.cond (.assign (.ident "x" none false) (.lit (.num 0)))
          (some (.lit (.num 1))) (some (.lit (.num 2))))
    ∧ evalF false [] [] 10 [] .undef
        (.cond (.assign (.ident "x" none false) (.lit (.num 0)))
          (some (.lit (.num 1))) (some (.lit (.num 2))))
      = .ok (.num 2, [("x", .num 0)])
    ∧ ctxLookup [("x", .num 0)] "x" = .num 0 :=
  ⟨rfl, rfl, rfl⟩

/-- C4.  The claim: a `FunctionCall` node raises
`Jexl Function <name> is not defined.` or
`Jexl Transform <name> is not defined.` depending on its pool, and a
registered callable is invoked on its evaluated arguments.  The
`FunctionCall` handler under `src` resolves the pool through a
`poolNames` table containing only `functions`, so any `transforms`-pool
node — which the parser's pipe handler produces and the repository's
`applies transforms` test expects to evaluate — raises
`Corrupt AST: Pool 'transforms' not found` even when the transform is
registered.  The functions pool behaves as claimed. -/
theorem c4_functionCall_pools :
    evalF false [] [("half", fun vs => .ok (vs.headD .undef))] 10 [] .undef
      (.call "half" [.lit (.num 10)] .transforms)
      = .err "Corrupt AST: Pool \x27transforms\x27 not found"
    ∧ evalF false [] [] 10 [] .undef (.call "world" [] .transforms)
      = .err "Corrupt AST: Pool \x27transforms\x27 not found"
    ∧ evalF false [] [] 10 [] .undef (.call "foo" [] .functions)
      = .err "Jexl Function foo is not defined."
    ∧ evalF false
        [("add", fun vs =>
          match vs with
          | [.num a, .num b] => .ok (.num (a + b))
          | _ => .ok .undef)] [] 10 [] .undef
        (.call "add"
          [.lit (.num 2), .binary "+" (.lit (.num 1)) (.lit (.num 2))]
          .functions)
      = .ok (.num 5, []) :=
  ⟨rfl, rfl, rfl, rfl⟩


/-- C3 (counterexample).  The claim says the parser raises the
`AssignmentTarget` error whenever the left of `=` is not a bare
identifier, member accesses like `a.b` included, so that every
`AssignmentExpression` target is a bare `Identifier`.  The `binaryOp`
handler under `src` only checks `cursor.type !== 'Identifier'`, so
`a.b = 5` parses without error into an `AssignmentExpression` whose
target `Identifier` carries a `from` subtree — falsifying both halves
of the claim at once. -/
theorem c3_assignment_target_counterexample :
    parseToks defaultG [.ident "a", .dot, .ident "b", .binOp "=",
      .lit (.num 5)]
      = .ok (.assign (.ident "b" (some (.ident "a" none false)) false)
          (.lit (.num 5))) := rfl

/-- C3 (amended).  On an `=` token the parser raises
`Left side of assignment must be a variable name` exactly when the
cursor node is not of type `Identifier` (e.g. the literal in `5 = 10`);
any `Identifier` cursor is accepted as target, including one with a
`from` subtree such as `a.b`, whose `AssignmentExpression` target then
carries that subtree. -/
theorem c3_assignment_target_amended (g : Grammar) (n : ℕ)
    (stops : List TKind) (frames : List PFrame) (seqAcc : List Ast)
    (enc rf : Bool) (toks : List Tok) (c : Ast) :
    ((∀ (nm : String) (src : Option Ast) (rl : Bool), c ≠ .ident nm src rl) →
      parseSub g (n + 1) stops
        ⟨frames, some c, .binop, seqAcc, enc, rf⟩ (.binOp "=" :: toks)
        = .err "Left side of assignment must be a variable name")
    ∧ (∀ (nm : String) (src : Option Ast) (rl : Bool), c = .ident nm src rl →
      parseSub g (n + 1) stops
        ⟨frames, some c, .binop, seqAcc, enc, rf⟩ (.binOp "=" :: toks)
        = parseSub g n stops
            ⟨.asn c :: frames, none, .operand, seqAcc, enc, rf⟩ toks)
    ∧ parseToks defaultG [.lit (.num 5), .binOp "=", .lit (.num 10)]
      = .err "Left side of assignment must be a variable name"
    ∧ parseToks defaultG
        [.ident "a", .dot, .ident "b", .binOp "=", .lit (.num 5)]
      = .ok (.assign (.ident "b" (some (.ident "a" none false)) false)
          (.lit (.num 5))) := by
  refine ⟨?_, ?_, rfl, rfl⟩
  · intro hne
    cases c with
    | ident nm src rl => exact absurd rfl (hne nm src rl)
    | lit v => rfl
    | binary op l r => rfl
    | unary op r => rfl
    | arrLit es => rfl
    | objLit es => rfl
    | tmpl ps => rfl
    | call nm args pool => rfl
    | filter s e r => rfl
    | cond t cs a => rfl
    | seq es => rfl
    | assign l r => rfl
  · rintro nm src rl rfl
    rfl

/-- Witness for C3's amended theorem: the error clause applied to the
literal cursor of `5 = 10`. -/
theorem c3_assignment_target_amended_witness :
    parseSub defaultG 3 [] ⟨[], some (.lit (.num 5)), .binop, [], false, false⟩
      [.binOp "=", .lit (.num 10)]
      = .err "Left side of assignment must be a variable name" :=
  (c3_assignment_target_amended defaultG 2 [] [] [] false false
    [.lit (.num 10)] (.lit (.num 5))).1
    (fun _ _ _ h => Ast.noConfusion h)

/-- C5.  Short-circuit: `&&` with a falsy left operand and `||` with a
truthy left operand return the left value without evaluating the right
operand at all — the result (value, context effects, and absence of any
error) is the left operand's alone, for every right operand `r`. -/
theorem c5_short_circuit (fl : Bool) (fs ts : FuncMap) (n : ℕ)
    (ctx c₁ : Ctx) (rel v : Value) (l : Ast)
    (h : evalF fl fs ts n ctx rel l = .ok (v, c₁)) :
    (truthy v = false →
      ∀ r : Ast, evalF fl fs ts (n + 1) ctx rel (.binary "&&" l r)
        = .ok (v, c₁))
    ∧ (truthy v = true →
      ∀ r : Ast, evalF fl fs ts (n + 1) ctx rel (.binary "||" l r)
        = .ok (v, c₁)) := by
  constructor
  · intro hf r
    simp [evalF, h, hf]
  · intro ht r
    simp [evalF, h, ht]

/-- Witness for C5: `false && boom()` and `1 || boom()` never observe
the unknown-function error that evaluating `boom()` raises. -/
theorem c5_short_circuit_witness :
    evalF false [] [] 6 [] .undef
      (.binary "&&" (.lit (.bool false)) (.call "boom" [] .functions))
      = .ok (.bool false, [])
    ∧ evalF false [] [] 6 [] .undef
        (.binary "||" (.lit (.num 1)) (.call "boom" [] .functions))
      = .ok (.num 1, [])
    ∧ evalF false [] [] 5 [] .undef (.call "boom" [] .functions)
      = .err "Jexl Function boom is not defined." :=
  ⟨(c5_short_circuit false [] [] 5 [] [] .undef (.bool false)
      (.lit (.bool false)) rfl).1 rfl (.call "boom" [] .functions),
   (c5_short_circuit false [] [] 5 [] [] .undef (.num 1)
      (.lit (.num 1)) rfl).2 rfl (.call "boom" [] .functions),
   rfl⟩

/-- C6.  An `Identifier` with a `from` subtree: a `null`/`undefined`
`from` value yields `undefined` without raising; an array `from` value
has the property read from its element 0 (`undefined` for an empty
array), and this projection is one level deep only — the final conjunct
shows an array of arrays is not recursively projected; any other value
has the property read from itself. -/
theorem c6_identifier_projection (fl : Bool) (fs ts : FuncMap) (n : ℕ)
    (ctx c₁ : Ctx) (rel v : Value) (name : String) (f : Ast) (relFlag : Bool)
    (h : evalF fl fs ts n ctx rel f = .ok (v, c₁)) :
    ((v = .null ∨ v = .undef) →
      evalF fl fs ts (n + 1) ctx rel (.ident name (some f) relFlag)
        = .ok (.undef, c₁))
    ∧ (∀ xs : List Value, v = .arr xs →
      evalF fl fs ts (n + 1) ctx rel (.ident name (some f) relFlag)
        = .ok (propRead (xs.headD .undef) name, c₁))
    ∧ (v ≠ .null → v ≠ .undef → (∀ xs : List Value, v ≠ .arr xs) →
      evalF fl fs ts (n + 1) ctx rel (.ident name (some f) relFlag)
        = .ok (propRead v name, c₁))
    ∧ evalF false [] [] 2 [("a", .arr [.arr [.obj [("hello", .str "world")]]])]
        .undef (.ident "hello" (some (.ident "a" none false)) false)
      = .ok (.undef, [("a", .arr [.arr [.obj [("hello", .str "world")]]])]) := by
  refine ⟨?_, ?_, ?_, rfl⟩
  · rintro (rfl | rfl) <;> simp [evalF, h]
  · rintro xs rfl
    simp [evalF, h]
  · intro h1 h2 h3
    cases v with
    | null => exact absurd rfl h1
    | undef => exact absurd rfl h2
    | arr xs => exact absurd rfl (h3 xs)
    | bool b => simp [evalF, h]
    | num m => simp [evalF, h]
    | str s => simp [evalF, h]
    | obj fsv => simp [evalF, h]

/-- Witness for C6: the test-suite fixture `foo.bar.tek` — `foo.bar` is
an array, so `tek` is read from its element 0, giving `'hello'`. -/
theorem c6_identifier_projection_witness :
    evalF false [] [] 3 filterCtx .undef
      (.ident "tek" (some (.ident "bar" (some (.ident "foo" none false))
        false)) false)
      = .ok (.str "hello", filterCtx) :=
  ((c6_identifier_projection false [] [] 2 filterCtx filterCtx .undef
      (.arr [.obj [("tek", .str "hello")], .obj [("tek", .str "baz")],
        .obj [("tok", .str "baz")]])
      "tek" (.ident "bar" (some (.ident "foo" none false)) false) false
      rfl).2.1
    [.obj [("tek", .str "hello")], .obj [("tek", .str "baz")],
     .obj [("tok", .str "baz")]] rfl).trans rfl

/-- C7.  `x = v` stores the evaluated right-hand value into the context
under `x` and returns it; the store changes no binding other than `x`
(the value is read back at `x`, and every other key reads as before). -/
theorem c7_assignment (fl : Bool) (fs ts : FuncMap) (n : ℕ) (ctx c₁ : Ctx)
    (rel v : Value) (x : String) (rhs : Ast)
    (h : evalF fl fs ts n ctx rel rhs = .ok (v, c₁)) :
    evalF fl fs ts (n + 1) ctx rel (.assign (.ident x none false) rhs)
      = .ok (v, ctxInsert c₁ x v)
    ∧ ctxLookup (ctxInsert c₁ x v) x = v
    ∧ ∀ y : String, y ≠ x →
        ctxLookup (ctxInsert c₁ x v) y = ctxLookup c₁ y := by
  refine ⟨?_, ctxLookup_ctxInsert_self c₁ x v,
    fun y hy => ctxLookup_ctxInsert_ne c₁ x y v hy⟩
  simp [evalF, h]

/-- Witness for C7: `x = 5` in the empty context binds `x` to `5`,
returns `5`, and leaves an unrelated key unbound. -/
theorem c7_assignment_witness :
    evalF false [] [] 2 [] .undef
      (.assign (.ident "x" none false) (.lit (.num 5)))
      = .ok (.num 5, [("x", .num 5)])
    ∧ ctxLookup [("x", .num 5)] "x" = .num 5
    ∧ ctxLookup [("x", .num 5)] "q" = ctxLookup [] "q" :=
  ⟨(c7_assignment false [] [] 1 [] [] .undef (.num 5) "x"
      (.lit (.num 5)) rfl).1,
   (c7_assignment false [] [] 1 [] [] .undef (.num 5) "x"
      (.lit (.num 5)) rfl).2.1,
   (c7_assignment false [] [] 1 [] [] .undef (.num 5) "x"
      (.lit (.num 5)) rfl).2.2 "q" (by decide)⟩

/-- C8.  Operator precedence: for binary operators `⊕q` and `⊕p` with
`q < p`, `a ⊕q b ⊕p c ⊕q d` parses as `(a ⊕q (b ⊕p c)) ⊕q d`; that tree
satisfies the no-higher-precedence-parent invariant; equal precedence
associates to the left (`a ⊕q b ⊕q c` parses as `(a ⊕q b) ⊕q c`); and
the completed AST of every flat binary-operator chain satisfies the
invariant (`noHigherParent`), whatever the operators' precedences. -/
theorem c8_precedence_grouping (g : Grammar) (op1 op2 : String) (p q : ℕ)
    (a b c d : Value)
    (h1 : g op1 = some (.binaryOp q)) (h2 : g op2 = some (.binaryOp p))
    (hne1 : op1 ≠ "=") (hne2 : op2 ≠ "=") (hpq : q < p) :
    parseToks g [.lit a, .binOp op1, .lit b, .binOp op2, .lit c,
      .binOp op1, .lit d]
      = .ok (.binary op1
          (.binary op1 (.lit a) (.binary op2 (.lit b) (.lit c))) (.lit d))
    ∧ noHigherParent g
        (.binary op1 (.binary op1 (.lit a) (.binary op2 (.lit b) (.lit c)))
          (.lit d)) = true
    ∧ parseToks g [.lit a, .binOp op1, .lit b, .binOp op1, .lit c]
      = .ok (.binary op1 (.binary op1 (.lit a) (.lit b)) (.lit c))
    ∧ (∀ (a0 : Value) (rest : List (String × Value)),
        (∀ ov ∈ rest, ov.1 ≠ "=") →
        ∃ ast, parseToks g (.lit a0 :: chainToks rest) = .ok ast ∧
          noHigherParent g ast = true) := by
  have hnpq : ¬ (p ≤ q) := Nat.not_le.mpr hpq
  have hq : precOf g op1 = q := by simp [precOf, h1]
  have hp : precOf g op2 = p := by simp [precOf, h2]
  refine ⟨?_, ?_, ?_, fun a0 rest hops => parse_flat_invariant g a0 rest hops⟩
  · simp [parseToks, parseSub, hne1, hne2, popGE, framePrecGE, hq, hp, hnpq,
      Nat.le_of_lt hpq, collapse, applyFrame, wrapSeq, initPState]
  · simp [noHigherParent, childPrecOK, hq, hp, Nat.le_of_lt hpq]
  · simp [parseToks, parseSub, hne1, popGE, framePrecGE, hq, collapse,
      applyFrame, wrapSeq, initPState]

/-- Witness for C8 at the default grammar: `1 + 2 * 3 + 4` groups as
`(1 + (2 * 3)) + 4`, and `1 + 2 + 3` associates left. -/
theorem c8_precedence_grouping_witness :
    parseToks defaultG [.lit (.num 1), .binOp "+", .lit (.num 2), .binOp "*",
      .lit (.num 3), .binOp "+", .lit (.num 4)]
      = .ok (.binary "+"
          (.binary "+" (.lit (.num 1))
            (.binary "*" (.lit (.num 2)) (.lit (.num 3))))
          (.lit (.num 4)))
    ∧ noHigherParent defaultG
        (.binary "+" (.binary "+" (.lit (.num 1))
          (.binary "*" (.lit (.num 2)) (.lit (.num 3)))) (.lit (.num 4)))
        = true
    ∧ parseToks defaultG [.lit (.num 1), .binOp "+", .lit (.num 2), .binOp "+",
        .lit (.num 3)]
      = .ok (.binary "+" (.binary "+" (.lit (.num 1)) (.lit (.num 2)))
          (.lit (.num 3))) :=
  ⟨(c8_precedence_grouping defaultG "+" "*" 40 30 (.num 1) (.num 2) (.num 3)
      (.num 4) rfl rfl (by decide) (by decide) (by decide)).1,
   (c8_precedence_grouping defaultG "+" "*" 40 30 (.num 1) (.num 2) (.num 3)
      (.num 4) rfl rfl (by decide) (by decide) (by decide)).2.1,
   (c8_precedence_grouping defaultG "+" "*" 40 30 (.num 1) (.num 2) (.num 3)
      (.num 4) rfl rfl (by decide) (by decide) (by decide)).2.2.1⟩

/-- C9.  A `TemplateLiteral` concatenates, in part order, static parts
verbatim with interpolation results, a `null`/`undefined` interpolation
contributing the empty string and any other value its host string
conversion; a template of static parts only yields exactly their text. -/
theorem c9_template_literal (fl : Bool) (fs ts : FuncMap) (n : ℕ)
    (ctx c₁ : Ctx) (rel v : Value) (texts : List String) (s₁ s₂ : String)
    (e : Ast) (h : evalF fl fs ts n ctx rel e = .ok (v, c₁)) :
    evalF fl fs ts (n + 1) ctx rel (.tmpl (texts.map Sum.inl))
      = .ok (.str (String.join texts), ctx)
    ∧ ((v = .null ∨ v = .undef) →
      evalF fl fs ts (n + 1) ctx rel (.tmpl [.inl s₁, .inr e, .inl s₂])
        = .ok (.str (s₁ ++ s₂), c₁))
    ∧ (v ≠ .null → v ≠ .undef →
      evalF fl fs ts (n + 1) ctx rel (.tmpl [.inl s₁, .inr e, .inl s₂])
        = .ok (.str (s₁ ++ jsToString v ++ s₂), c₁)) := by
  refine ⟨?_, ?_, ?_⟩
  · show Res.bind _ _ = _
    rw [tmpl_static_fold]
    simp [String.empty_append]
  · rintro (rfl | rfl) <;>
      simp [evalF, h, String.empty_append, String.append_empty,
        String.append_assoc]
  · intro h1 h2
    cases v with
    | null => exact absurd rfl h1
    | undef => exact absurd rfl h2
    | bool b =>
      simp [evalF, h, String.empty_append, String.append_empty,
        String.append_assoc]
    | num m =>
      simp [evalF, h, String.empty_append, String.append_empty,
        String.append_assoc]
    | str s =>
      simp [evalF, h, String.empty_append, String.append_empty,
        String.append_assoc]
    | arr xs =>
      simp [evalF, h, String.empty_append, String.append_empty,
        String.append_assoc]
    | obj fsv =>
      simp [evalF, h, String.empty_append, String.append_empty,
        String.append_assoc]

/-- Witness for C9: a static-only template yields its text; a string
interpolation is spliced via host conversion; an undefined one
contributes the empty string. -/
theorem c9_template_literal_witness :
    evalF false [] [] 2 [] .undef (.tmpl [.inl "just a string"])
      = .ok (.str "just a string", [])
    ∧ evalF false [] [] 2 [("name", .str "World")] .undef
        (.tmpl [.inl "Hello ", .inr (.ident "name" none false), .inl "!"])
      = .ok (.str "Hello World!", [("name", .str "World")])
    ∧ evalF false [] [] 2 [] .undef
        (.tmpl [.inl "Value: ", .inr (.ident "missing" none false), .inl ""])
      = .ok (.str "Value: ", []) :=
  ⟨(c9_template_literal false [] [] 1 [] [] .undef (.undef) ["just a string"]
      "" "" (.lit .undef) rfl).1,
   (c9_template_literal false [] [] 1 [("name", .str "World")]
      [("name", .str "World")] .undef (.str "World") [] "Hello " "!"
      (.ident "name" none false) rfl).2.2
      (fun hx => Value.noConfusion hx) (fun hx => Value.noConfusion hx),
   (c9_template_literal false [] [] 1 [] [] .undef .undef [] "Value: " ""
      (.ident "missing" none false) rfl).2.1 (Or.inr rfl)⟩

/-- C10.  A `ConditionalExpression` evaluates its test exactly once:
with the consequent omitted and a truthy test, the already-computed test
value (and the context state from that single evaluation) is returned —
so `(x = x + 1) ?: 0` starting from `x = 0` leaves `x` at `1`, not `2`,
and yields `1`. -/
theorem c10_conditional_single_test (fl : Bool) (fs ts : FuncMap) (n : ℕ)
    (ctx c₁ : Ctx) (rel v : Value) (t : Ast) (alt : Option Ast)
    (h : evalF fl fs ts n ctx rel t = .ok (v, c₁)) (ht : truthy v = true) :
    evalF fl fs ts (n + 1) ctx rel (.cond t none alt) = .ok (v, c₁)
    ∧ (parseToks defaultG
        [.openParen, .ident "x", .binOp "=", .ident "x", .binOp "+",
         .lit (.num 1), .closeParen, .question, .colon, .lit (.num 0)]
      = .ok (.cond
          (.assign (.ident "x" none false)
            (.binary "+" (.ident "x" none false) (.lit (.num 1))))
          none (some (.lit (.num 0)))))
    ∧ evalF false [] [] 10 [("x", .num 0)] .undef
        (.cond
          (.assign (.ident "x" none false)
            (.binary "+" (.ident "x" none false) (.lit (.num 1))))
          none (some (.lit (.num 0))))
      = .ok (.num 1, [("x", .num 1)]) := by
  refine ⟨?_, rfl, rfl⟩
  simp [evalF, h, ht]

/-- Witness for C10: the general clause applied to the parsed test of
`(x = x + 1) ?: 0` with `x` initially `0`. -/
theorem c10_conditional_single_test_witness :
    evalF false [] [] 10 [("x", .num 0)] .undef
      (.cond
        (.assign (.ident "x" none false)
          (.binary "+" (.ident "x" none false) (.lit (.num 1))))
        none (some (.lit (.num 0))))
      = .ok (.num 1, [("x", .num 1)]) :=
  (c10_conditional_single_test false [] [] 9 [("x", .num 0)] [("x", .num 1)]
    .undef (.num 1)
    (.assign (.ident "x" none false)
      (.binary "+" (.ident "x" none false) (.lit (.num 1))))
    (some (.lit (.num 0))) rfl rfl).1

end Jexl
